import Mathlib

/-!
Shallow embedding of the session store of the SwiftBridge WalletConnect
service (src/services/SessionManager.ts, src/services/WalletConnectService.ts)
together with proofs about its codec, CRUD operations and reconciliation
sweep.

Modelling conventions:
* A stored Redis string value is modelled by its parsed JSON tree (`Json`):
  `JSON.stringify` / `JSON.parse` are a faithful round trip on that tree, and
  an object produced by `JSON.parse` never has duplicate keys.
* A JavaScript `Date` is modelled by its epoch-millisecond value as a `Nat`
  (the service only ever stores `Date.now()`-derived timestamps, all after
  the epoch).  `Date.prototype.toISOString` is `isoOfMs`, and `new Date(s)`
  on a string is `msOfIso` (`none` models an Invalid Date); only the
  canonical `toISOString` output format is modelled on the parsing side.
* Redis keys used by the store live in two disjoint families: string keys
  `session:<id>` and set keys `address:<addr>`, so the keyspace is modelled
  by two tables.
-/

namespace SwiftWC

/-- Parsed JSON value, the model of a stored Redis string value. -/
inductive Json where
  | null : Json
  | bool (b : Bool) : Json
  | num (n : Int) : Json
  | str (s : String) : Json
  | arr (elems : List Json) : Json
  | obj (fields : List (String × Json)) : Json

/-- Property access `parsed.k` on a JSON.parse result: `none` models
`undefined` (absent field, or access on a non-object). -/
def fieldOf (j : Json) (k : String) : Option Json :=
  match j with
  | .obj fields => fields.lookup k
  | _ => none

/-- Left zero-padding of a decimal rendering, as used by `toISOString`. -/
def padDec (w : Nat) (n : Nat) : String :=
  let s := toString n
  String.mk (List.replicate (w - s.length) '0') ++ s

/-- Civil date (year, month, day) of a day count since 1970-01-01
(the standard era-based Gregorian algorithm used by date libraries). -/
def civilFromDays (z : Nat) : Nat × Nat × Nat :=
  let z' := z + 719468
  let era := z' / 146097
  let doe := z' % 146097
  let yoe := (doe - doe / 1460 + doe / 36524 - doe / 146096) / 365
  let y := yoe + era * 400
  let doy := doe - (365 * yoe + yoe / 4 - yoe / 100)
  let mp := (5 * doy + 2) / 153
  let d := doy - (153 * mp + 2) / 5 + 1
  let m := if mp < 10 then mp + 3 else mp - 9
  (if m ≤ 2 then y + 1 else y, m, d)

/-- Day count since 1970-01-01 of a civil date (year ≥ 1970). -/
def daysFromCivil (y m d : Nat) : Nat :=
  let y' := if m ≤ 2 then y - 1 else y
  let era := y' / 400
  let yoe := y' % 400
  let mp := if 2 < m then m - 3 else m + 9
  let doy := (153 * mp + 2) / 5 + d - 1
  let doe := yoe * 365 + yoe / 4 - yoe / 100 + doy
  era * 146097 + doe - 719468

/-- `Date.prototype.toISOString` on an epoch-millisecond value:
`YYYY-MM-DDTHH:mm:ss.sssZ`. -/
def isoOfMs (t : Nat) : String :=
  let ms := t % 1000
  let secs := t / 1000
  let h := secs / 3600 % 24
  let mi := secs / 60 % 60
  let sec := secs % 60
  let days := secs / 86400
  let ymd := civilFromDays days
  padDec 4 ymd.1 ++ "-" ++ padDec 2 ymd.2.1 ++ "-" ++ padDec 2 ymd.2.2 ++
    "T" ++ padDec 2 h ++ ":" ++ padDec 2 mi ++ ":" ++ padDec 2 sec ++
    "." ++ padDec 3 ms ++ "Z"

/-- Decimal value of a digit character. -/
def digitVal (c : Char) : Option Nat :=
  if '0' ≤ c ∧ c ≤ '9' then some (c.toNat - 48) else none

/-- Decimal value of a digit string given as a character list. -/
def digitsVal (cs : List Char) : Option Nat :=
  cs.foldl (fun acc c => acc.bind fun a => (digitVal c).map fun v => a * 10 + v)
    (some 0)

/-- `new Date(s).getTime()` on a string in the canonical `toISOString`
format; `none` models an Invalid Date (unparseable input or out-of-range
components). -/
def msOfIso (s : String) : Option Nat :=
  match s.toList with
  | [y1, y2, y3, y4, '-', o1, o2, '-', d1, d2, 'T',
     h1, h2, ':', i1, i2, ':', s1, s2, '.', m1, m2, m3, 'Z'] =>
    match digitsVal [y1, y2, y3, y4], digitsVal [o1, o2], digitsVal [d1, d2],
          digitsVal [h1, h2], digitsVal [i1, i2], digitsVal [s1, s2],
          digitsVal [m1, m2, m3] with
    | some y, some mo, some d, some h, some mi, some sec, some ms =>
      if 1970 ≤ y ∧ 1 ≤ mo ∧ mo ≤ 12 ∧ 1 ≤ d ∧ d ≤ 31 ∧
          h < 24 ∧ mi < 60 ∧ sec < 60 then
        some ((((daysFromCivil y mo d * 24 + h) * 60 + mi) * 60 + sec) * 1000 + ms)
      else none
    | _, _, _, _, _, _, _ => none
  | _ => none

/-- The `WalletSession` interface (src/types): a well-formed session value as
constructed by `WalletConnectService.createSession`.  `metadata = none`
models the field being absent/undefined. -/
structure WalletSession where
  id : String
  address : String
  chainId : Int
  connectedAt : Nat
  lastActivity : Nat
  metadata : Option Json

/-- The runtime shape of `SessionManager.getSession`'s result:
`{...parsed, connectedAt: new Date(...), lastActivity: new Date(...)}`.
Fields typed `Option Json` are `undefined` when the stored object lacked
them; the date fields are `none` for an Invalid Date.  `extra` keeps the
unknown additional fields preserved by the object spread. -/
structure JsSession where
  id : Option Json
  address : Option Json
  chainId : Option Json
  connectedAt : Option Nat
  lastActivity : Option Nat
  metadata : Option Json
  extra : List (String × Json)

/-- `new Date(x)` for a field value read from a parsed object: a canonical
ISO string parses via `msOfIso`, a non-negative number is taken as epoch
milliseconds, anything else (including `undefined`) is an Invalid Date. -/
def dateOfField (j : Option Json) : Option Nat :=
  match j with
  | some (.str s) => msOfIso s
  | some (.num n) => if 0 ≤ n then some n.toNat else none
  | _ => none

/-- The known session field names (those the decoder reads by name). -/
def sessionFieldNames : List String :=
  ["id", "address", "chainId", "connectedAt", "lastActivity", "metadata"]

/-- Serialization performed by `SessionManager.createSession` /
`updateSession`: `JSON.stringify({...session, connectedAt:
session.connectedAt.toISOString(), lastActivity:
session.lastActivity.toISOString()})`. -/
def encodeSession (s : WalletSession) : Json :=
  .obj ([("id", .str s.id),
         ("address", .str s.address),
         ("chainId", .num s.chainId),
         ("connectedAt", .str (isoOfMs s.connectedAt)),
         ("lastActivity", .str (isoOfMs s.lastActivity))] ++
        (match s.metadata with
         | some m => [("metadata", m)]
         | none => []))

/-- Deserialization performed by `SessionManager.getSession`:
`const parsed = JSON.parse(data); return {...parsed, connectedAt: new
Date(parsed.connectedAt), lastActivity: new Date(parsed.lastActivity)}`.
Note that no required-field validation is performed. -/
def decodeSession (j : Json) : JsSession :=
  { id := fieldOf j "id"
    address := fieldOf j "address"
    chainId := fieldOf j "chainId"
    connectedAt := dateOfField (fieldOf j "connectedAt")
    lastActivity := dateOfField (fieldOf j "lastActivity")
    metadata := fieldOf j "metadata"
    extra :=
      match j with
      | .obj fields => fields.filter (fun f => f.1 ∉ sessionFieldNames)
      | _ => [] }

/-- The `JsSession` shape of a well-formed `WalletSession`: what a faithful
round trip through the codec must return. -/
def jsOfSession (s : WalletSession) : JsSession :=
  { id := some (.str s.id)
    address := some (.str s.address)
    chainId := some (.num s.chainId)
    connectedAt := some s.connectedAt
    lastActivity := some s.lastActivity
    metadata := s.metadata
    extra := [] }

end SwiftWC

namespace SwiftWC

/-- ASCII lower-casing of one character (the case relevant to hex wallet
addresses), as applied by `toLowerCase()`. -/
def lowerChar (c : Char) : Char :=
  if 'A' ≤ c ∧ c ≤ 'Z' then Char.ofNat (c.toNat + 32) else c

/-- `String.prototype.toLowerCase()`. -/
def toLowerStr (s : String) : String := ⟨s.data.map lowerChar⟩

/-- Whether `p` is a prefix of `s`: the matching discipline of a Redis
`KEYS "p*"` glob pattern. -/
def startsWithStr (s p : String) : Bool := p.data.isPrefixOf s.data

/-- `some rest` when the pattern is a prefix of the list, with `rest` the
remainder. -/
def dropPat (pat s : List Char) : Option (List Char) :=
  match pat, s with
  | [], s => some s
  | _ :: _, [] => none
  | p :: ps, c :: cs => if c = p then dropPat ps cs else none

/-- First-occurrence replacement on character lists. -/
def replaceFirstList (s pat rep : List Char) : List Char :=
  match dropPat pat s with
  | some rest => rep ++ rest
  | none =>
    match s with
    | [] => []
    | c :: cs => c :: replaceFirstList cs pat rep

/-- First-occurrence replacement, the semantics of JavaScript
`String.prototype.replace` with a string pattern. -/
def replaceFirst (s pat rep : String) : String :=
  ⟨replaceFirstList s.data pat.data rep.data⟩

/-- The Redis keyspace as used by the store: string keys (`session:<id>`,
holding a serialized session and an optional TTL in seconds, `none` = no
expiry) and set keys (`address:<addr>`, holding a session-id set and an
optional TTL). -/
structure RedisState where
  strings : List (String × Json × Option Nat)
  sets : List (String × List String × Option Nat)

/-- Association-list update: replace the binding of `k` (or append one). -/
def updAssoc {β : Type} (l : List (String × β)) (k : String) (v : β) :
    List (String × β) :=
  match l with
  | [] => [(k, v)]
  | e :: rest => if e.1 = k then (k, v) :: rest else e :: updAssoc rest k v

/-- Association-list removal of a key. -/
def removeAssoc {β : Type} (l : List (String × β)) (k : String) :
    List (String × β) :=
  match l with
  | [] => []
  | e :: rest =>
    if e.1 = k then removeAssoc rest k else e :: removeAssoc rest k

/-- Association-list removal of every listed key. -/
def removeKeys {β : Type} (l : List (String × β)) (ks : List String) :
    List (String × β) :=
  match l with
  | [] => []
  | e :: rest =>
    if e.1 ∈ ks then removeKeys rest ks else e :: removeKeys rest ks

namespace RedisState

/-- `GET key` on a string key (value only). -/
def getStr (s : RedisState) (k : String) : Option Json :=
  (s.strings.lookup k).map Prod.fst

/-- `TTL key` on a string key: `none` = key absent (Redis `-2`),
`some none` = no expiry (Redis `-1`), `some (some t)` = `t` seconds left. -/
def ttlCmd (s : RedisState) (k : String) : Option (Option Nat) :=
  (s.strings.lookup k).map Prod.snd

/-- `SETEX key ttl value`. -/
def setex (s : RedisState) (k : String) (ttl : Nat) (v : Json) : RedisState :=
  { s with strings := updAssoc s.strings k (v, some ttl) }

/-- `DEL key` on a string key. -/
def delStr (s : RedisState) (k : String) : RedisState :=
  { s with strings := removeAssoc s.strings k }

/-- `SMEMBERS key` (empty for an absent key). -/
def smembers (s : RedisState) (k : String) : List String :=
  match s.sets.lookup k with
  | some e => e.1
  | none => []

/-- `SADD key member`: creates the set (with no expiry) when absent. -/
def sadd (s : RedisState) (k m : String) : RedisState :=
  match s.sets.lookup k with
  | some (ms, ttl) =>
    if m ∈ ms then s
    else { s with sets := updAssoc s.sets k (ms ++ [m], ttl) }
  | none => { s with sets := s.sets ++ [(k, [m], none)] }

/-- `SREM key member`: Redis drops a set key that becomes empty. -/
def srem (s : RedisState) (k m : String) : RedisState :=
  match s.sets.lookup k with
  | some (ms, ttl) =>
    let ms' := ms.filter (· ≠ m)
    if ms' = [] then { s with sets := removeAssoc s.sets k }
    else { s with sets := updAssoc s.sets k (ms', ttl) }
  | none => s

/-- `EXPIRE key ttl`: refreshes the TTL of whichever key exists. -/
def expireCmd (s : RedisState) (k : String) (t : Nat) : RedisState :=
  match s.strings.lookup k with
  | some (v, _) => { s with strings := updAssoc s.strings k (v, some t) }
  | none =>
    match s.sets.lookup k with
    | some (ms, _) => { s with sets := updAssoc s.sets k (ms, some t) }
    | none => s

/-- `KEYS "session:*"`: the primary session keys (string keys). -/
def sessionScan (s : RedisState) : List String :=
  (s.strings.map Prod.fst).filter (fun k => startsWithStr k "session:")

/-- `KEYS "address:*"`: the address index keys (set keys). -/
def addressScan (s : RedisState) : List String :=
  (s.sets.map Prod.fst).filter (fun k => startsWithStr k "address:")

/-- Passive backend expiry: the listed string keys are evicted. -/
def evictAll (s : RedisState) (ks : List String) : RedisState :=
  { s with strings := removeKeys s.strings ks }

end RedisState

/-- A failure surfacing from a store operation: the backend gave up after
its retries, or a decoded value was used at the wrong runtime type. -/
inductive StoreError where
  | unavailable : StoreError
  | typeError : StoreError
deriving DecidableEq, Repr

/-- An asynchronous store operation: given the set of backend-call indices
that fail (`fails`, modelling `BackendUnavailable` after retry exhaustion),
the current state and the index of the next backend call, it returns a
result or error, the new state, and the next call index.  Each `await` on
the Redis client is one indexed call. -/
def Eff (α : Type) : Type :=
  List Nat → RedisState → Nat → Except StoreError α × RedisState × Nat

/-- Return without touching the backend. -/
def Eff.pure {α : Type} (a : α) : Eff α := fun _ s n => (.ok a, s, n)

/-- Sequencing: a raised error aborts the rest of the operation. -/
def Eff.bind {α β : Type} (x : Eff α) (f : α → Eff β) : Eff β :=
  fun fails s n =>
    match x fails s n with
    | (.ok a, s', n') => f a fails s' n'
    | (.error e, s', n') => (.error e, s', n')

/-- A synchronously thrown runtime error (no backend call consumed). -/
def Eff.raise {α : Type} (e : StoreError) : Eff α := fun _ s n => (.error e, s, n)

/-- One backend call: fails with `BackendUnavailable` when its index is in
the failure schedule, otherwise performs the command. -/
def call {α : Type} (op : RedisState → α × RedisState) : Eff α :=
  fun fails s n =>
    if n ∈ fails then (.error .unavailable, s, n + 1)
    else (.ok (op s).1, (op s).2, n + 1)

/-- A read-only backend call. -/
def query {α : Type} (f : RedisState → α) : Eff α := call (fun s => (f s, s))

/-- A state-changing backend call. -/
def store (g : RedisState → RedisState) : Eff Unit := call (fun s => ((), g s))

/-- `try { x } catch { handler }`: state changes made before the failure
persist. -/
def tryCatch {α : Type} (x : Eff α) (handler : Eff α) : Eff α :=
  fun fails s n =>
    match x fails s n with
    | (.ok a, s', n') => (.ok a, s', n')
    | (.error _, s', n') => handler fails s' n'

/-- Environment event, not a backend call: keys evicted by passive expiry
between two calls of the running operation. -/
def envEvict (ks : List String) : Eff Unit :=
  fun _ s n => (.ok (), s.evictAll ks, n)

end SwiftWC

namespace SwiftWC

/-- `this.sessionExpiry = 24 * 60 * 60 * 1000` (milliseconds). -/
def sessionExpiry : Nat := 24 * 60 * 60 * 1000

/-- `getSessionKey(sessionId)`. -/
def getSessionKey (sessionId : String) : String := "session:" ++ sessionId

/-- `getAddressKey(address)` (normalizes to lower case). -/
def getAddressKey (address : String) : String := "address:" ++ toLowerStr address

namespace SessionManager

/-- `SessionManager.createSession`: `SETEX` of the serialized record with
the session TTL, then `SADD` of the id into the address index set and
`EXPIRE` of that set.  The `catch` clause only logs and rethrows, so it is
semantically transparent. -/
def createSession (sess : WalletSession) : Eff Unit :=
  Eff.bind (store fun s =>
      s.setex (getSessionKey sess.id) (sessionExpiry / 1000) (encodeSession sess))
    fun _ =>
  Eff.bind (store fun s => s.sadd (getAddressKey sess.address) sess.id) fun _ =>
  store fun s => s.expireCmd (getAddressKey sess.address) (sessionExpiry / 1000)

/-- `SessionManager.getSession`: `GET`, then decode; any raised error is
caught, logged and turned into `null`. -/
def getSession (sessionId : String) : Eff (Option JsSession) :=
  tryCatch
    (Eff.bind (query fun s => s.getStr (getSessionKey sessionId)) fun sessionData =>
      match sessionData with
      | none => Eff.pure none
      | some j => Eff.pure (some (decodeSession j)))
    (Eff.pure none)

/-- `SessionManager.updateSession`: a single `SETEX` of the full serialized
record with the full session TTL.  The `catch` clause only logs and
rethrows. -/
def updateSession (sess : WalletSession) : Eff Unit :=
  store fun s =>
    s.setex (getSessionKey sess.id) (sessionExpiry / 1000) (encodeSession sess)

/-- `SessionManager.deleteSession`: read the record to learn its address
(absent record: plain return), `DEL` the primary key, `SREM` the id from
that address's index set.  `session.address.toLowerCase()` throws a
`TypeError` when the decoded address is not a string; the `catch` clause
only logs and rethrows. -/
def deleteSession (sessionId : String) : Eff Unit :=
  Eff.bind (getSession sessionId) fun sessOpt =>
  match sessOpt with
  | none => Eff.pure ()
  | some sess =>
    Eff.bind (store fun s => s.delStr (getSessionKey sessionId)) fun _ =>
    match sess.address with
    | some (.str a) => store fun s => s.srem (getAddressKey a) sessionId
    | _ => Eff.raise .typeError

/-- The member-resolution loop of `getSessionsByAddress`: resolve each id
via `getSession` and keep the non-null results. -/
def resolveSessions (ids : List String) : Eff (List JsSession) :=
  match ids with
  | [] => Eff.pure []
  | i :: rest =>
    Eff.bind (getSession i) fun sOpt =>
    Eff.bind (resolveSessions rest) fun others =>
    Eff.pure (match sOpt with
              | some js => js :: others
              | none => others)

/-- `SessionManager.getSessionsByAddress`: `SMEMBERS` of the address index
set, then resolve each member; any raised error is caught and turned into
an empty list. -/
def getSessionsByAddress (address : String) : Eff (List JsSession) :=
  tryCatch
    (Eff.bind (query fun s => s.smembers (getAddressKey address)) fun ids =>
      resolveSessions ids)
    (Eff.pure [])

/-- `SREM` of one member from every listed index key, in order. -/
def sremFromAll (keys : List String) (member : String) : Eff Unit :=
  match keys with
  | [] => Eff.pure ()
  | k :: rest =>
    Eff.bind (store fun s => s.srem k member) fun _ => sremFromAll rest member

/-- The per-key loop of `cleanupExpiredSessions`: query `TTL`; on `-1`
(no expiry) re-apply the standard TTL without counting; on `-2` (key gone)
scrub the id out of every `address:*` set and count it; otherwise skip. -/
def cleanupLoop (keys : List String) : Eff Nat :=
  match keys with
  | [] => Eff.pure 0
  | key :: rest =>
    Eff.bind (query fun s => s.ttlCmd key) fun ttl =>
    match ttl with
    | some none =>
      Eff.bind (store fun s => s.expireCmd key (sessionExpiry / 1000)) fun _ =>
      cleanupLoop rest
    | none =>
      Eff.bind (query RedisState.addressScan) fun addressKeys =>
      Eff.bind (sremFromAll addressKeys (replaceFirst key "session:" "")) fun _ =>
      Eff.bind (cleanupLoop rest) fun c =>
      Eff.pure (c + 1)
    | some (some _) => cleanupLoop rest

/-- `SessionManager.cleanupExpiredSessions`: scan the `session:*` keys and
run the per-key loop; any raised error is caught and turned into `0`.
`evicted` lists the keys the backend passively expires right after the
scan (the only interleaving the loop can observe). -/
def cleanupExpiredSessions (evicted : List String) : Eff Nat :=
  tryCatch
    (Eff.bind (query RedisState.sessionScan) fun keys =>
     Eff.bind (envEvict evicted) fun _ =>
     cleanupLoop keys)
    (Eff.pure 0)

end SessionManager

namespace WalletConnectService

/-- `WalletConnectService.disconnectSession`: delegate to
`SessionManager.deleteSession`; `true` on success, `false` when it threw. -/
def disconnectSession (sessionId : String) : Eff Bool :=
  tryCatch
    (Eff.bind (SessionManager.deleteSession sessionId) fun _ => Eff.pure true)
    (Eff.pure false)

/-- `WalletConnectService.cleanupExpiredSessions`: delegate to the manager
sweep; `0` when it threw. -/
def cleanupExpiredSessions (evicted : List String) : Eff Nat :=
  tryCatch (SessionManager.cleanupExpiredSessions evicted) (Eff.pure 0)

end WalletConnectService

end SwiftWC

namespace SwiftWC

/-! Concrete instances used by witnesses and counterexamples. -/

/-- A well-formed session as built by `WalletConnectService.createSession`. -/
def demoSession : WalletSession :=
  ⟨"a1", "0xAbC", 8453, 1700000000000, 1700000000000, none⟩

/-- A session carrying metadata (as after an update with `{metadata}`). -/
def demoSessionMeta : WalletSession :=
  ⟨"a2", "0xabc", 1, 1700000000000, 1700000099000, some (.str "metamask")⟩

/-- A stored value missing the required `id` field. -/
def jsonMissingId : Json :=
  .obj [("address", .str "0xabc"), ("chainId", .num 1),
        ("connectedAt", .str (isoOfMs 1700000000000)),
        ("lastActivity", .str (isoOfMs 1700000000000))]

/-- A store holding only the `id`-less record under `session:x`. -/
def stMissingId : RedisState := ⟨[("session:x", (jsonMissingId, some 100))], []⟩

/-- The empty store. -/
def stEmpty : RedisState := ⟨[], []⟩

/-- A store with a dangling index entry: `address:0xabc` references `sid1`
but no primary `session:sid1` record exists. -/
def stDangling : RedisState := ⟨[], [("address:0xabc", (["sid1"], none))]⟩

/-- A store whose primary record `session:a1` carries no TTL. -/
def stNoTtl : RedisState := ⟨[("session:a1", (Json.str "v", none))], []⟩

/-- A store where `session:a1` is close to expiry (5 seconds left). -/
def stShortTtl : RedisState := ⟨[("session:a1", (Json.str "v", some 5))], []⟩

/-- A store holding `demoSession` in both views. -/
def stWithDemo : RedisState :=
  ⟨[("session:a1", (encodeSession demoSession, some 86400))],
   [("address:0xabc", (["a1"], some 86400))]⟩

end SwiftWC

namespace SwiftWC

/-! Basic lemmas about the keyspace model. -/

theorem lookup_cons_unfold {β : Type} (a : String) (b : β)
    (t : List (String × β)) (k' : String) :
    List.lookup k' ((a, b) :: t) = if k' = a then some b else t.lookup k' := by
  by_cases h : k' = a
  · simp [List.lookup, h]
  · simp [List.lookup, beq_false_of_ne h, h]

theorem lookup_updAssoc {β : Type} (l : List (String × β)) (k k' : String)
    (v : β) :
    (updAssoc l k v).lookup k' = if k' = k then some v else l.lookup k' := by
  induction l with
  | nil =>
    by_cases h : k' = k
    · simp [updAssoc, List.lookup, h]
    · simp [updAssoc, List.lookup, h, beq_false_of_ne h]
  | cons e rest ih =>
    obtain ⟨ek, ev⟩ := e
    by_cases he : ek = k
    · subst he
      by_cases h : k' = ek <;> simp [updAssoc, lookup_cons_unfold, h]
    · by_cases h : k' = ek
      · have hkk : k' ≠ k := by rw [h]; exact he
        simp [updAssoc, he, lookup_cons_unfold, h, hkk]
      · simp [updAssoc, he, lookup_cons_unfold, h, ih]

theorem lookup_removeAssoc_self {β : Type} (l : List (String × β))
    (k : String) : (removeAssoc l k).lookup k = none := by
  induction l with
  | nil => rfl
  | cons e rest ih =>
    obtain ⟨ek, ev⟩ := e
    by_cases he : ek = k
    · simpa [removeAssoc, he] using ih
    · rw [removeAssoc, if_neg he, lookup_cons_unfold,
        if_neg (fun h => he h.symm)]
      exact ih

theorem lookup_removeAssoc_ne {β : Type} (l : List (String × β))
    (k k' : String) (h : k' ≠ k) :
    (removeAssoc l k).lookup k' = l.lookup k' := by
  induction l with
  | nil => rfl
  | cons e rest ih =>
    obtain ⟨ek, ev⟩ := e
    by_cases he : ek = k
    · rw [removeAssoc, if_pos he, ih, lookup_cons_unfold,
        if_neg (fun hk => h (hk.trans he))]
    · rw [removeAssoc, if_neg he, lookup_cons_unfold, lookup_cons_unfold]
      by_cases hk : k' = ek
      · simp [hk]
      · simp [hk, ih]

theorem lookup_removeKeys_mem {β : Type} (l : List (String × β))
    (ks : List String) (k' : String) (h : k' ∈ ks) :
    (removeKeys l ks).lookup k' = none := by
  induction l with
  | nil => rfl
  | cons e rest ih =>
    obtain ⟨ek, ev⟩ := e
    by_cases he : ek ∈ ks
    · simpa [removeKeys, he] using ih
    · have hk : k' ≠ ek := fun hk => he (hk ▸ h)
      rw [removeKeys, if_neg he, lookup_cons_unfold, if_neg hk]
      exact ih

theorem lookup_removeKeys_not_mem {β : Type} (l : List (String × β))
    (ks : List String) (k' : String) (h : k' ∉ ks) :
    (removeKeys l ks).lookup k' = l.lookup k' := by
  induction l with
  | nil => rfl
  | cons e rest ih =>
    obtain ⟨ek, ev⟩ := e
    by_cases he : ek ∈ ks
    · have hk : k' ≠ ek := fun hkk => h (hkk ▸ he)
      rw [removeKeys, if_pos he, ih, lookup_cons_unfold, if_neg hk]
    · rw [removeKeys, if_neg he, lookup_cons_unfold, lookup_cons_unfold]
      by_cases hk : k' = ek
      · simp [hk]
      · simp [hk, ih]

theorem lookup_isSome_of_mem_keys {β : Type} (l : List (String × β))
    (k : String) (h : k ∈ l.map Prod.fst) : (l.lookup k).isSome := by
  induction l with
  | nil => simp at h
  | cons e rest ih =>
    obtain ⟨ek, ev⟩ := e
    simp only [List.map_cons, List.mem_cons] at h
    by_cases hk : k = ek
    · simp [lookup_cons_unfold, hk]
    · simp only [lookup_cons_unfold, if_neg hk]
      exact ih (h.resolve_left hk)

theorem getSessionKey_ne_getAddressKey (i a : String) :
    getSessionKey i ≠ getAddressKey a := by
  intro h
  have hd : ("session:" ++ i).data = ("address:" ++ toLowerStr a).data :=
    congrArg String.data h
  rw [String.data_append, String.data_append] at hd
  rw [show ("session:".data) = ['s', 'e', 's', 's', 'i', 'o', 'n', ':'] from rfl,
      show ("address:".data) = ['a', 'd', 'd', 'r', 'e', 's', 's', ':'] from rfl] at hd
  exact absurd (List.cons.inj hd).1 (by decide)

end SwiftWC

namespace SwiftWC

/-! Lemmas about the individual Redis commands. -/

theorem getStr_setex_self (s : RedisState) (k : String) (t : Nat) (v : Json) :
    (s.setex k t v).getStr k = some v := by
  simp [RedisState.setex, RedisState.getStr, lookup_updAssoc]

theorem ttlCmd_setex_self (s : RedisState) (k : String) (t : Nat) (v : Json) :
    (s.setex k t v).ttlCmd k = some (some t) := by
  simp [RedisState.setex, RedisState.ttlCmd, lookup_updAssoc]

theorem getStr_setex_ne (s : RedisState) (k k' : String) (t : Nat) (v : Json)
    (h : k' ≠ k) : (s.setex k t v).getStr k' = s.getStr k' := by
  simp [RedisState.setex, RedisState.getStr, lookup_updAssoc, h]

theorem ttlCmd_setex_ne (s : RedisState) (k k' : String) (t : Nat) (v : Json)
    (h : k' ≠ k) : (s.setex k t v).ttlCmd k' = s.ttlCmd k' := by
  simp [RedisState.setex, RedisState.ttlCmd, lookup_updAssoc, h]

theorem sets_setex (s : RedisState) (k : String) (t : Nat) (v : Json) :
    (s.setex k t v).sets = s.sets := rfl

theorem strings_sadd (s : RedisState) (k m : String) :
    (s.sadd k m).strings = s.strings := by
  unfold RedisState.sadd
  split <;> first | rfl | split <;> rfl

theorem strings_srem (s : RedisState) (k m : String) :
    (s.srem k m).strings = s.strings := by
  unfold RedisState.srem
  cases hl : s.sets.lookup k with
  | none => simp [hl]
  | some e =>
    obtain ⟨ms, ttl⟩ := e
    simp only [hl]
    split <;> rfl

theorem lookup_append_right_of_none {β : Type} (l : List (String × β))
    (k : String) (v : β) (h : l.lookup k = none) :
    (l ++ [(k, v)]).lookup k = some v := by
  induction l with
  | nil => simp [List.lookup]
  | cons e rest ih =>
    obtain ⟨ek, ev⟩ := e
    rw [lookup_cons_unfold] at h
    by_cases hk : k = ek
    · rw [if_pos hk] at h
      exact absurd h (by simp)
    · rw [if_neg hk] at h
      rw [List.cons_append, lookup_cons_unfold, if_neg hk]
      exact ih h

theorem strings_delStr (s : RedisState) (k : String) :
    (s.delStr k).strings = removeAssoc s.strings k := rfl

theorem smembers_sadd_self (s : RedisState) (k m : String) :
    m ∈ (s.sadd k m).smembers k := by
  unfold RedisState.sadd RedisState.smembers
  cases hl : s.sets.lookup k with
  | none =>
    simp only [hl]
    rw [lookup_append_right_of_none _ _ _ hl]
    simp
  | some e =>
    obtain ⟨ms, ttl⟩ := e
    simp only [hl]
    by_cases hm : m ∈ ms
    · simp [hm, hl]
    · simp [hm, lookup_updAssoc]

theorem smembers_expireCmd (s : RedisState) (k k' : String) (t : Nat) :
    (s.expireCmd k t).smembers k' = s.smembers k' := by
  unfold RedisState.expireCmd
  cases hs : s.strings.lookup k with
  | some e => rfl
  | none =>
    cases hl : s.sets.lookup k with
    | none => rfl
    | some e =>
      obtain ⟨ms, ttl⟩ := e
      simp only [RedisState.smembers, lookup_updAssoc]
      by_cases hk : k' = k
      · subst hk
        simp [hl]
      · simp [hk]

theorem getStr_expireCmd (s : RedisState) (k k' : String) (t : Nat) :
    (s.expireCmd k t).getStr k' = s.getStr k' := by
  unfold RedisState.expireCmd
  cases hs : s.strings.lookup k with
  | none =>
    cases s.sets.lookup k with
    | none => rfl
    | some e => rfl
  | some e =>
    obtain ⟨v0, t0⟩ := e
    simp only [RedisState.getStr, lookup_updAssoc]
    by_cases hk : k' = k
    · subst hk
      simp [hs]
    · simp [hk]

theorem lookup_isNone_expireCmd (s : RedisState) (k k' : String) (t : Nat) :
    ((s.expireCmd k t).strings.lookup k').isNone
      = (s.strings.lookup k').isNone := by
  unfold RedisState.expireCmd
  cases hs : s.strings.lookup k with
  | none =>
    cases s.sets.lookup k with
    | none => rfl
    | some e => rfl
  | some e =>
    obtain ⟨v0, t0⟩ := e
    simp only [lookup_updAssoc]
    by_cases hk : k' = k
    · subst hk
      simp [hs]
    · simp [hk]

theorem lookup_isNone_srem (s : RedisState) (k m k' : String) :
    ((s.srem k m).strings.lookup k').isNone
      = (s.strings.lookup k').isNone := by
  rw [strings_srem]

end SwiftWC

namespace SwiftWC

/-! Run lemmas for the store operations. -/

theorem countP_ext_mem {α : Type} (l : List α) (p q : α → Bool)
    (h : ∀ a ∈ l, p a = q a) : l.countP p = l.countP q := by
  induction l with
  | nil => rfl
  | cons a t ih =>
    simp only [List.countP_cons, h a (List.mem_cons_self a t),
      ih (fun b hb => h b (List.mem_cons_of_mem a hb))]

theorem getSession_run (id : String) (s : RedisState) (n : Nat) :
    SessionManager.getSession id [] s n
      = (.ok ((s.getStr (getSessionKey id)).map decodeSession), s, n + 1) := by
  cases hg : s.getStr (getSessionKey id) with
  | none =>
    simp [SessionManager.getSession, tryCatch, Eff.bind, query, call,
      Eff.pure, hg]
  | some j =>
    simp [SessionManager.getSession, tryCatch, Eff.bind, query, call,
      Eff.pure, hg]

theorem resolveSessions_run (ids : List String) : ∀ (s : RedisState) (n : Nat),
    SessionManager.resolveSessions ids [] s n
      = (.ok (ids.filterMap
            (fun i => (s.getStr (getSessionKey i)).map decodeSession)),
         s, n + ids.length) := by
  induction ids with
  | nil =>
    intro s n
    simp [SessionManager.resolveSessions, Eff.pure]
  | cons i rest ih =>
    intro s n
    simp only [SessionManager.resolveSessions, Eff.bind, getSession_run, ih,
      List.filterMap_cons]
    cases hg : s.getStr (getSessionKey i) with
    | none =>
      simp [hg, Eff.pure, Prod.mk.injEq]
      all_goals omega
    | some j =>
      simp [hg, Eff.pure, Prod.mk.injEq]
      all_goals omega

theorem getSessionsByAddress_run (a : String) (s : RedisState) (n : Nat) :
    SessionManager.getSessionsByAddress a [] s n
      = (.ok ((s.smembers (getAddressKey a)).filterMap
            (fun i => (s.getStr (getSessionKey i)).map decodeSession)),
         s, n + 1 + (s.smembers (getAddressKey a)).length) := by
  simp [SessionManager.getSessionsByAddress, tryCatch, Eff.bind, query, call,
    resolveSessions_run]

theorem sremFromAll_run (ks : List String) (m : String) :
    ∀ (s : RedisState) (n : Nat),
    ∃ s' n', SessionManager.sremFromAll ks m [] s n = (.ok (), s', n')
      ∧ s'.strings = s.strings := by
  induction ks with
  | nil =>
    intro s n
    exact ⟨s, n, rfl, rfl⟩
  | cons k rest ih =>
    intro s n
    obtain ⟨s', n', h1, h2⟩ := ih (s.srem k m) (n + 1)
    refine ⟨s', n', ?_, h2.trans (strings_srem s k m)⟩
    simp [SessionManager.sremFromAll, Eff.bind, store, call, h1]

theorem cleanupLoop_run (keys : List String) : ∀ (s : RedisState) (n : Nat),
    ∃ s' n', SessionManager.cleanupLoop keys [] s n
        = (.ok (keys.countP (fun k => (s.strings.lookup k).isNone)), s', n')
      ∧ ∀ k, (s'.strings.lookup k).isNone = (s.strings.lookup k).isNone := by
  induction keys with
  | nil =>
    intro s n
    exact ⟨s, n, by simp [SessionManager.cleanupLoop, Eff.pure], fun k => rfl⟩
  | cons key rest ih =>
    intro s n
    cases hl : s.strings.lookup key with
    | none =>
      obtain ⟨s1, n1, hs1, hstr1⟩ :=
        sremFromAll_run s.addressScan (replaceFirst key "session:" "") s (n + 2)
      obtain ⟨s2, n2, hs2, hpres⟩ := ih s1 n1
      refine ⟨s2, n2, ?_, fun k => (hpres k).trans (by rw [hstr1])⟩
      have hcount : rest.countP (fun k => (s1.strings.lookup k).isNone)
          = rest.countP (fun k => (s.strings.lookup k).isNone) := by
        rw [hstr1]
      simp [SessionManager.cleanupLoop, Eff.bind, query, call, Eff.pure,
        RedisState.ttlCmd, hl, hs1, hs2, hcount, List.countP_cons]
    | some e =>
      obtain ⟨v, ttl⟩ := e
      cases ttl with
      | none =>
        obtain ⟨s2, n2, hs2, hpres⟩ :=
          ih (s.expireCmd key (sessionExpiry / 1000)) (n + 2)
        refine ⟨s2, n2, ?_, fun k =>
          (hpres k).trans (lookup_isNone_expireCmd s key k _)⟩
        have hcount : rest.countP
              (fun k => (((s.expireCmd key (sessionExpiry / 1000)).strings.lookup
                k).isNone))
            = rest.countP (fun k => (s.strings.lookup k).isNone) :=
          countP_ext_mem _ _ _
            (fun k _ => lookup_isNone_expireCmd s key k _)
        simp [SessionManager.cleanupLoop, Eff.bind, query, call, store,
          Eff.pure, RedisState.ttlCmd, hl, hs2, hcount, List.countP_cons]
      | some t =>
        obtain ⟨s2, n2, hs2, hpres⟩ := ih s (n + 1)
        refine ⟨s2, n2, ?_, hpres⟩
        simp [SessionManager.cleanupLoop, Eff.bind, query, call, Eff.pure,
          RedisState.ttlCmd, hl, hs2, List.countP_cons]

end SwiftWC

namespace SwiftWC

/-- C4: codec round-trip — for every valid session whose timestamps survive
the ISO-8601 textual normalization used in serialization (the JavaScript
`Date`/`toISOString` round trip), decoding the encoded form yields the
session itself. -/
theorem c4_decode_encode_roundtrip (s : WalletSession)
    (hc : msOfIso (isoOfMs s.connectedAt) = some s.connectedAt)
    (hl : msOfIso (isoOfMs s.lastActivity) = some s.lastActivity) :
    decodeSession (encodeSession s) = jsOfSession s := by
  obtain ⟨i, a, c, ca, la, md⟩ := s
  cases md with
  | none =>
    rw [show decodeSession (encodeSession ⟨i, a, c, ca, la, none⟩)
        = ⟨some (.str i), some (.str a), some (.num c), msOfIso (isoOfMs ca),
           msOfIso (isoOfMs la), none, []⟩ from rfl]
    rw [show msOfIso (isoOfMs ca) = some ca from hc,
        show msOfIso (isoOfMs la) = some la from hl]
    rfl
  | some m =>
    rw [show decodeSession (encodeSession ⟨i, a, c, ca, la, some m⟩)
        = ⟨some (.str i), some (.str a), some (.num c), msOfIso (isoOfMs ca),
           msOfIso (isoOfMs la), some m, []⟩ from rfl]
    rw [show msOfIso (isoOfMs ca) = some ca from hc,
        show msOfIso (isoOfMs la) = some la from hl]
    rfl

/-- C4 witness: the round trip evaluated at a concrete session with
metadata and a concrete timestamp. -/
theorem c4_witness :
    msOfIso (isoOfMs demoSessionMeta.connectedAt)
        = some demoSessionMeta.connectedAt
    ∧ msOfIso (isoOfMs demoSessionMeta.lastActivity)
        = some demoSessionMeta.lastActivity
    ∧ decodeSession (encodeSession demoSessionMeta)
        = jsOfSession demoSessionMeta :=
  ⟨rfl, rfl, c4_decode_encode_roundtrip demoSessionMeta rfl rfl⟩

/-- C3 counterexample: a stored record missing the required `id` field is
still decoded and returned as a session by `getSession` (with `id`
undefined) — it does not fail with a decode error. -/
theorem c3_counterexample :
    (SessionManager.getSession "x" [] stMissingId 0).1
      = .ok (some (decodeSession jsonMissingId))
    ∧ (decodeSession jsonMissingId).id = none :=
  ⟨rfl, rfl⟩

/-- C3 (amended): decoding never rejects a stored JSON value — any stored
value decodes to a session object (missing required fields come out
undefined / as invalid dates), and unknown additional fields are tolerated
(they do not disturb the named fields and are carried through by the object
spread). -/
theorem c3_decode_total :
    (∀ (s : RedisState) (id : String) (j : Json),
      s.getStr (getSessionKey id) = some j →
      (SessionManager.getSession id [] s 0).1 = .ok (some (decodeSession j)))
    ∧ (∀ (fields : List (String × Json)) (k : String) (v : Json),
      k ∉ sessionFieldNames →
      decodeSession (.obj ((k, v) :: fields))
        = { decodeSession (.obj fields) with
            extra := (k, v) :: (decodeSession (.obj fields)).extra }) := by
  constructor
  · intro s id j h
    rw [getSession_run, h]
    rfl
  · intro fields k v hk
    have h1 : "id" ≠ k := fun h => hk (h ▸ by simp [sessionFieldNames])
    have h2 : "address" ≠ k := fun h => hk (h ▸ by simp [sessionFieldNames])
    have h3 : "chainId" ≠ k := fun h => hk (h ▸ by simp [sessionFieldNames])
    have h4 : "connectedAt" ≠ k := fun h => hk (h ▸ by simp [sessionFieldNames])
    have h5 : "lastActivity" ≠ k := fun h => hk (h ▸ by simp [sessionFieldNames])
    have h6 : "metadata" ≠ k := fun h => hk (h ▸ by simp [sessionFieldNames])
    simp [decodeSession, fieldOf, lookup_cons_unfold, h1, h2, h3, h4, h5, h6,
      List.filter, hk]

/-- C3 witness: the amended decode behaviour evaluated at a stored
well-formed record and at an object with one unknown field. -/
theorem c3_witness :
    stWithDemo.getStr (getSessionKey "a1") = some (encodeSession demoSession)
    ∧ (SessionManager.getSession "a1" [] stWithDemo 0).1
        = .ok (some (decodeSession (encodeSession demoSession)))
    ∧ decodeSession (.obj (("future", Json.null) :: []))
        = { decodeSession (.obj []) with
            extra := ("future", Json.null) :: (decodeSession (.obj [])).extra } :=
  ⟨rfl, c3_decode_total.1 stWithDemo "a1" (encodeSession demoSession) rfl,
   c3_decode_total.2 [] "future" Json.null (by decide)⟩

end SwiftWC

namespace SwiftWC

/-- C5: TTL restart on update — for every existing session, one
`updateSession` succeeds and leaves the primary record's TTL at the full
configured session TTL (`sessionExpiry / 1000` seconds, i.e. 24 hours),
whatever TTL remained before. -/
theorem c5_update_restarts_ttl (s : RedisState) (sess : WalletSession)
    (j : Json) (h : s.getStr (getSessionKey sess.id) = some j) :
    (SessionManager.updateSession sess [] s 0).1 = .ok ()
    ∧ ((SessionManager.updateSession sess [] s 0).2.1).ttlCmd
        (getSessionKey sess.id) = some (some (sessionExpiry / 1000))
    ∧ sessionExpiry / 1000 = 24 * 60 * 60 := by
  refine ⟨?_, ?_, rfl⟩
  · simp [SessionManager.updateSession, store, call]
  · simp [SessionManager.updateSession, store, call, ttlCmd_setex_self]

/-- C5 witness: updating a session that had 5 seconds of TTL left leaves a
full 24-hour TTL on its record. -/
theorem c5_witness :
    stShortTtl.getStr (getSessionKey demoSession.id) = some (Json.str "v")
    ∧ ((SessionManager.updateSession demoSession [] stShortTtl 0).2.1).ttlCmd
        (getSessionKey demoSession.id) = some (some 86400) :=
  ⟨rfl, (c5_update_restarts_ttl stShortTtl demoSession (Json.str "v") rfl).2.1⟩

/-- C6: idempotent delete — when no record exists for an id,
`deleteSession` returns normally without touching the store, and
`disconnectSession` reports `true`. -/
theorem c6_idempotent_delete (s : RedisState) (id : String)
    (h : s.getStr (getSessionKey id) = none) :
    SessionManager.deleteSession id [] s 0 = (.ok (), s, 1)
    ∧ WalletConnectService.disconnectSession id [] s 0 = (.ok true, s, 1) := by
  constructor
  · simp [SessionManager.deleteSession, Eff.bind, getSession_run, h, Eff.pure]
  · simp [WalletConnectService.disconnectSession, tryCatch, Eff.bind,
      SessionManager.deleteSession, getSession_run, h, Eff.pure]

/-- C6 witness: deleting / disconnecting a never-created id on the empty
store. -/
theorem c6_witness :
    SessionManager.deleteSession "ghost" [] stEmpty 0 = (.ok (), stEmpty, 1)
    ∧ WalletConnectService.disconnectSession "ghost" [] stEmpty 0
        = (.ok true, stEmpty, 1) :=
  c6_idempotent_delete stEmpty "ghost" rfl

theorem getStr_sadd (s : RedisState) (k m k' : String) :
    (s.sadd k m).getStr k' = s.getStr k' := by
  unfold RedisState.getStr
  rw [strings_sadd]

/-- C7: index consistency after create — `createSession` succeeds, the
address index set of the session's address contains its id, and a
subsequent `getSessionsByAddress` for that address returns a list
containing a session whose id is the created one. -/
theorem c7_create_index_consistent (s : RedisState) (sess : WalletSession) :
    (SessionManager.createSession sess [] s 0).1 = .ok ()
    ∧ sess.id ∈ ((SessionManager.createSession sess [] s 0).2.1).smembers
        (getAddressKey sess.address)
    ∧ ∃ l, (SessionManager.getSessionsByAddress sess.address
            [] ((SessionManager.createSession sess [] s 0).2.1) 0).1 = .ok l
        ∧ ∃ js ∈ l, js.id = some (.str sess.id) := by
  have hstate : (SessionManager.createSession sess [] s 0).2.1
      = ((s.setex (getSessionKey sess.id) (sessionExpiry / 1000)
            (encodeSession sess)).sadd (getAddressKey sess.address)
            sess.id).expireCmd (getAddressKey sess.address)
            (sessionExpiry / 1000) := by
    simp [SessionManager.createSession, Eff.bind, store, call]
  have hmem : sess.id ∈ ((SessionManager.createSession sess [] s 0).2.1).smembers
      (getAddressKey sess.address) := by
    rw [hstate, smembers_expireCmd]
    exact smembers_sadd_self _ _ sess.id
  have hget : ((SessionManager.createSession sess [] s 0).2.1).getStr
      (getSessionKey sess.id) = some (encodeSession sess) := by
    rw [hstate, getStr_expireCmd, getStr_sadd]
    exact getStr_setex_self s _ _ _
  refine ⟨by simp [SessionManager.createSession, Eff.bind, store, call],
    hmem, ?_⟩
  rw [getSessionsByAddress_run]
  refine ⟨_, rfl, decodeSession (encodeSession sess), ?_, ?_⟩
  · exact List.mem_filterMap.mpr ⟨sess.id, hmem, by rw [hget]; rfl⟩
  · obtain ⟨i, a, c, ca, la, md⟩ := sess
    cases md <;> rfl

/-- C8: update is frame-preserving on the address index — `updateSession`
leaves the whole set table unchanged and touches no string key other than
the session's own primary key. -/
theorem c8_update_frame (s : RedisState) (sess : WalletSession) :
    ((SessionManager.updateSession sess [] s 0).2.1).sets = s.sets
    ∧ ∀ k, k ≠ getSessionKey sess.id →
        ((SessionManager.updateSession sess [] s 0).2.1).getStr k = s.getStr k
        ∧ ((SessionManager.updateSession sess [] s 0).2.1).ttlCmd k
            = s.ttlCmd k := by
  refine ⟨?_, fun k hk => ⟨?_, ?_⟩⟩
  · simp [SessionManager.updateSession, store, call, sets_setex]
  · simp [SessionManager.updateSession, store, call,
      getStr_setex_ne _ _ _ _ _ hk]
  · simp [SessionManager.updateSession, store, call,
      ttlCmd_setex_ne _ _ _ _ _ hk]

/-- C8 witness: the frame property evaluated at a concrete store, for the
sets table and for an unrelated string key. -/
theorem c8_witness :
    ((SessionManager.updateSession demoSession [] stWithDemo 0).2.1).sets
        = stWithDemo.sets
    ∧ ((SessionManager.updateSession demoSession [] stWithDemo 0).2.1).getStr
        "session:zz" = stWithDemo.getStr "session:zz" :=
  ⟨(c8_update_frame stWithDemo demoSession).1,
   ((c8_update_frame stWithDemo demoSession).2 "session:zz" (by decide)).1⟩

end SwiftWC

namespace SwiftWC

/-- C1 (code-bug evidence): on a store whose address index set references
an id with no primary record, one reconciliation sweep returns 0 and leaves
the store — including the dangling index entry — completely unchanged: the
sweep enumerates only existing `session:*` keys, so an already-absent
record is never examined and its id is never removed from the index.
`listByAddress` still omits the id, but only through its lazy member-drop,
not through any repair. -/
theorem c1_dangling_not_repaired :
    SessionManager.cleanupExpiredSessions [] [] stDangling 0
        = (.ok 0, stDangling, 1)
    ∧ "sid1" ∈ stDangling.smembers "address:0xabc"
    ∧ (SessionManager.getSessionsByAddress "0xabc" [] stDangling 0).1
        = .ok [] := by
  refine ⟨rfl, ?_, rfl⟩
  decide

/-- C2 counterexample: a sweep over a store whose only record lacks a TTL
acts on that record (the standard TTL is applied to it) yet returns 0
instead of counting it. -/
theorem c2_counterexample :
    (SessionManager.cleanupExpiredSessions [] [] stNoTtl 0).1 = .ok 0
    ∧ ((SessionManager.cleanupExpiredSessions [] [] stNoTtl 0).2.1).ttlCmd
        "session:a1" = some (some 86400)
    ∧ stNoTtl.ttlCmd "session:a1" = some none :=
  ⟨rfl, rfl, rfl⟩

/-- C2 (amended): the sweep's return value counts exactly the scanned keys
whose record had vanished by the time its TTL was queried (the keys whose
dangling index references it scrubbed); records that merely lacked a TTL
are repaired with the standard TTL but not counted. -/
theorem c2_cleanup_count (s : RedisState) (evicted : List String) :
    (SessionManager.cleanupExpiredSessions evicted [] s 0).1
      = .ok (s.sessionScan.countP (fun k => decide (k ∈ evicted))) := by
  obtain ⟨s', n', hrun, hpres⟩ :=
    cleanupLoop_run s.sessionScan (s.evictAll evicted) 1
  have hcount : s.sessionScan.countP
        (fun k => ((s.evictAll evicted).strings.lookup k).isNone)
      = s.sessionScan.countP (fun k => decide (k ∈ evicted)) := by
    apply countP_ext_mem
    intro k hkmem
    have hsome : (s.strings.lookup k).isSome :=
      lookup_isSome_of_mem_keys _ _ (List.mem_filter.mp hkmem).1
    by_cases hk : k ∈ evicted
    · simp [RedisState.evictAll, lookup_removeKeys_mem _ _ _ hk, hk]
    · cases hopt : s.strings.lookup k with
      | none =>
        rw [hopt] at hsome
        exact absurd hsome (by simp)
      | some v =>
        simp [RedisState.evictAll, lookup_removeKeys_not_mem _ _ _ hk, hk,
          hopt]
  rw [← hcount]
  simp [SessionManager.cleanupExpiredSessions, tryCatch, Eff.bind, query,
    call, envEvict, hrun]

/-- C9 counterexample: with the first backend call failing
(`BackendUnavailable` on the initial read), `deleteSession` returns
normally, deleting nothing — the failure on this write path is not
propagated to the caller. -/
theorem c9_counterexample :
    SessionManager.deleteSession "a1" [0] stWithDemo 0
        = (.ok (), stWithDemo, 1)
    ∧ (stWithDemo.getStr (getSessionKey "a1")).isSome = true :=
  ⟨rfl, rfl⟩

/-- C9 (amended): `createSession` and `updateSession` propagate every
backend failure; `deleteSession` propagates failures of its `DEL` and
`SREM` calls, but a failure of its initial read is swallowed by
`getSession` (which catches and returns null), so `deleteSession` then
returns successfully without deleting anything. -/
theorem c9_failure_propagation :
    (∀ (s : RedisState) (sess : WalletSession) (fails : List Nat),
      0 ∈ fails ∨ 1 ∈ fails ∨ 2 ∈ fails →
      (SessionManager.createSession sess fails s 0).1 = .error .unavailable)
    ∧ (∀ (s : RedisState) (sess : WalletSession) (fails : List Nat),
      0 ∈ fails →
      (SessionManager.updateSession sess fails s 0).1 = .error .unavailable)
    ∧ (∀ (s : RedisState) (id : String) (fails : List Nat),
      0 ∈ fails →
      SessionManager.deleteSession id fails s 0 = (.ok (), s, 1))
    ∧ (∀ (s : RedisState) (id : String) (fails : List Nat) (j : Json),
      0 ∉ fails → s.getStr (getSessionKey id) = some j →
      (∃ a, (decodeSession j).address = some (.str a)) →
      1 ∈ fails ∨ 2 ∈ fails →
      (SessionManager.deleteSession id fails s 0).1 = .error .unavailable) := by
  refine ⟨?_, ?_, ?_, ?_⟩
  · intro s sess fails h
    by_cases h0 : 0 ∈ fails
    · simp [SessionManager.createSession, Eff.bind, store, call, h0]
    · by_cases h1 : 1 ∈ fails
      · simp [SessionManager.createSession, Eff.bind, store, call, h0, h1]
      · have h2 : 2 ∈ fails := (h.resolve_left h0).resolve_left h1
        simp [SessionManager.createSession, Eff.bind, store, call, h0, h1, h2]
  · intro s sess fails h
    simp [SessionManager.updateSession, store, call, h]
  · intro s id fails h
    simp [SessionManager.deleteSession, SessionManager.getSession, Eff.bind,
      tryCatch, query, call, Eff.pure, h]
  · intro s id fails j h0 hj ha h12
    obtain ⟨a, ha⟩ := ha
    by_cases h1 : 1 ∈ fails
    · simp [SessionManager.deleteSession, SessionManager.getSession, Eff.bind,
        tryCatch, query, store, call, Eff.pure, h0, hj, ha, h1]
    · have h2 : 2 ∈ fails := h12.resolve_left h1
      simp [SessionManager.deleteSession, SessionManager.getSession, Eff.bind,
        tryCatch, query, store, call, Eff.pure, h0, hj, ha, h1, h2]

/-- C9 witness: the amended propagation behaviour evaluated at concrete
stores and failure schedules. -/
theorem c9_witness :
    (SessionManager.createSession demoSession [1] stEmpty 0).1
        = .error .unavailable
    ∧ (SessionManager.updateSession demoSession [0] stEmpty 0).1
        = .error .unavailable
    ∧ SessionManager.deleteSession "a1" [0] stEmpty 0 = (.ok (), stEmpty, 1)
    ∧ (SessionManager.deleteSession "a1" [1] stWithDemo 0).1
        = .error .unavailable :=
  ⟨c9_failure_propagation.1 stEmpty demoSession [1]
      (Or.inr (Or.inl (by decide))),
   c9_failure_propagation.2.1 stEmpty demoSession [0] (by decide),
   c9_failure_propagation.2.2.1 stEmpty "a1" [0] (by decide),
   c9_failure_propagation.2.2.2 stWithDemo "a1" [1] (encodeSession demoSession)
      (by decide) rfl ⟨"0xAbC", rfl⟩ (Or.inl (by decide))⟩

end SwiftWC
